import Mathlib

set_option maxHeartbeats 1000000

/-!
Shallow embedding of `Optimizacion_Logistica.py` (single-file CVRPTW script).

Conventions of the embedding:
* Python `int` values (minutes, demands, capacities, durations) become `Int`;
  node and vehicle indices become `Nat`.
* Python strings become `String` / `List Char`; Python `str.split(':')` and
  `int(...)` are embedded below as `splitOnChar` and `pyInt`.
* Code that can raise an exception is embedded as an `Option`-returning
  function, `none` marking the raised exception.
* The routing-library calls made by `main` (dimension construction, per-node
  bounds) are embedded as an explicit feasibility predicate over candidate
  solutions; each conjunct is annotated with the source line it comes from.
-/

/-! ## Time utilities -/

/-- Decimal digit character for a value `0..9` (used by Python's decimal
rendering of integers); any other argument is unreachable in this file. -/
def digitChar : Nat → Char
  | 0 => '0'
  | 1 => '1'
  | 2 => '2'
  | 3 => '3'
  | 4 => '4'
  | 5 => '5'
  | 6 => '6'
  | 7 => '7'
  | 8 => '8'
  | 9 => '9'
  | _ => '?'

/-- Fuel-driven digit extraction (structural recursion so that concrete
values reduce in the kernel); `natDecChars` supplies enough fuel. -/
def natDecAux : Nat → Nat → List Char
  | 0, _ => []
  | fuel + 1, n =>
    if n < 10 then [digitChar n]
    else natDecAux fuel (n / 10) ++ [digitChar (n % 10)]

/-- Decimal digit characters of a natural number, most significant digit
first: Python's rendering of a nonnegative `int`. -/
def natDecChars (n : Nat) : List Char :=
  natDecAux (n + 1) n

theorem natDecAux_congr : ∀ f₁ f₂ n, n < f₁ → n < f₂ →
    natDecAux f₁ n = natDecAux f₂ n := by
  intro f₁
  induction f₁ with
  | zero => intro f₂ n h; omega
  | succ f ih =>
    intro f₂ n h₁ h₂
    match f₂, h₂ with
    | f' + 1, _ =>
      simp only [natDecAux]
      by_cases hn : n < 10
      · simp [hn]
      · simp only [hn, if_false]
        have hd : n / 10 < n := Nat.div_lt_self (by omega) (by omega)
        rw [ih f' (n / 10) (by omega) (by omega)]

/-- Unfolding equation for `natDecChars`. -/
theorem natDecChars_eq (n : Nat) :
    natDecChars n =
      if n < 10 then [digitChar n]
      else natDecChars (n / 10) ++ [digitChar (n % 10)] := by
  by_cases hn : n < 10
  · simp [natDecChars, natDecAux, hn]
  · have hd : n / 10 < n := Nat.div_lt_self (by omega) (by omega)
    have h1 : natDecAux (n + 1) n =
        if n < 10 then [digitChar n]
        else natDecAux n (n / 10) ++ [digitChar (n % 10)] := rfl
    unfold natDecChars
    rw [h1, if_neg hn, if_neg hn,
      natDecAux_congr n (n / 10 + 1) (n / 10) (by omega) (by omega)]

/-- Decimal characters of a Python `int`, sign included. -/
def intDecChars (n : Int) : List Char :=
  if n < 0 then '-' :: natDecChars n.natAbs else natDecChars n.toNat

/-- Embedding of the Python format spec `{:02d}`: left-pad the decimal
rendering with `0` to width two (a negative value of width ≥ 2 is unchanged,
as in Python). -/
def pad2 (n : Int) : List Char :=
  if 0 ≤ n ∧ n < 10 then '0' :: natDecChars n.toNat else intDecChars n

/-- Embedding of the rendering `f"{v//60:02d}:{v%60:02d}"` used by
`process_solution` (src lines 195-196, 217-218, 229) to turn a cumulative
time value back into a clock string.  Python `//` and `%` are floor division
and floor modulus, hence `Int.fdiv` / `Int.fmod`. -/
def minutesStr (v : Int) : String :=
  String.mk (pad2 (Int.fdiv v 60) ++ ':' :: pad2 (Int.fmod v 60))

/-- Canonical zero-padded clock string `"HH:MM"` built from an hour and a
minute value; for `h < 24`, `m < 60` these are exactly the valid 24-hour
clock strings. -/
def clockStr (h m : Nat) : String :=
  String.mk (pad2 (h : Int) ++ ':' :: pad2 (m : Int))

/-- Embedding of Python `str.split(sep)` for a one-character separator:
all occurrences split, empty parts kept (`"".split(':') == ['']`,
`":".split(':') == ['', '']`). -/
def splitOnChar (sep : Char) : List Char → List (List Char)
  | [] => [[]]
  | c :: rest =>
    match splitOnChar sep rest with
    | [] => [[c]]
    | r :: rs => if c = sep then [] :: r :: rs else (c :: r) :: rs

/-- Value of a nonempty all-digit character list, most significant first. -/
def digitsVal (cs : List Char) : Nat :=
  cs.foldl (fun a c => 10 * a + (c.toNat - 48)) 0

/-- Parse a nonempty run of decimal digits; `none` otherwise. -/
def parseDigits (cs : List Char) : Option Nat :=
  if cs.isEmpty then none
  else if cs.all (fun c => c.isDigit) then some (digitsVal cs) else none

/-- Embedding of Python `int(s)` on the string forms this script can meet:
an optional sign followed by a nonempty digit run parses, anything else
raises `ValueError` (= `none`).  (Python's tolerance for surrounding
whitespace and `_` digit separators is not modelled; no caller relies on
it.) -/
def pyInt : List Char → Option Int
  | '-' :: rest => (parseDigits rest).map (fun n => -(n : Int))
  | '+' :: rest => (parseDigits rest).map (fun n => (n : Int))
  | cs => (parseDigits cs).map (fun n => (n : Int))

/-- Embedding of `time_to_minutes` (src lines 65-68):
`h, m = map(int, str(time_str).split(':')); return h * 60 + m`.
The unpacking succeeds exactly when the split yields two parts and both
parse as ints; every other input raises (= `none`). -/
def time_to_minutes (s : String) : Option Int :=
  match (splitOnChar ':' s.data).map pyInt with
  | [some h, some m] => some (h * 60 + m)
  | _ => none

example : time_to_minutes (String.mk ['0', '7', ':', '3', '0']) = some 450 := by decide
example : time_to_minutes (String.mk ['2', '5', ':', '9', '9']) = some 1599 := by decide
example : time_to_minutes (String.mk ['0', '7', '3', '0']) = none := by decide
example : minutesStr 450 = String.mk ['0', '7', ':', '3', '0'] := by decide
example : minutesStr 1470 = String.mk ['2', '4', ':', '3', '0'] := by decide

/-! ## Staggered release scheduler -/

/-- Embedding of the loop at src lines 304-317: starting from the global
loading start `S`, each vehicle in input order gets
`(start_loading_time, departure_time)` with
`departure = start + loading_duration`, and the next vehicle starts loading
when the current one departs (`current_time = departure_time`).
The second component is the release time passed to
`time_dimension.CumulVar(Start(v)).SetMin`. -/
def staggered_times (S : Int) : List Int → List (Int × Int)
  | [] => []
  | d :: ds => (S, S + d) :: staggered_times (S + d) ds

/-- Loading-start time of vehicle `v` (the `start_loading_times` list). -/
def load_start (S : Int) (ds : List Int) (v : Nat) : Int :=
  ((staggered_times S ds).getD v (0, 0)).1

/-- Release (earliest-departure) time of vehicle `v`. -/
def release (S : Int) (ds : List Int) (v : Nat) : Int :=
  ((staggered_times S ds).getD v (0, 0)).2

/-- Per-vehicle release times in input order, as `main` feeds them to the
time dimension. -/
def mainReleases (S : Int) (ds : List Int) : List Int :=
  (staggered_times S ds).map Prod.snd

/-- Closed form for the scheduler: entry `v` is
`(S + sum of the first v durations, S + sum of the first v+1 durations)`. -/
theorem staggered_times_getD (S : Int) (ds : List Int) (v : Nat) (h : v < ds.length) :
    (staggered_times S ds).getD v (0, 0) =
      (S + ((ds.take v).sum), S + ((ds.take (v + 1)).sum)) := by
  induction ds generalizing S v with
  | nil => simp at h
  | cons d ds ih =>
    cases v with
    | zero => simp [staggered_times]
    | succ v =>
      simp only [staggered_times, List.getD_cons_succ, List.take_succ_cons,
        List.sum_cons]
      rw [ih (S + d) v (by simpa using h)]
      rw [Prod.mk.injEq]
      constructor <;> ring

theorem staggered_times_length (S : Int) (ds : List Int) :
    (staggered_times S ds).length = ds.length := by
  induction ds generalizing S with
  | nil => rfl
  | cons d ds ih => simp [staggered_times, ih]

/-! ## Problem model and constraint dimensions

`create_data_model` (src lines 155-165) packages the inputs into a dict;
`main` (src lines 280-332) builds the routing model on top of it.  The
routing-library dimension calls are embedded as an executable feasibility
predicate over candidate solutions: a solution the solver returns satisfies
exactly these constraints. -/

/-- Embedding of the dict built by `create_data_model` (src lines 155-165). -/
structure RoutingData where
  time_matrix : List (List Int)
  time_windows : List (Int × Int)
  demands : List Int
  service_times : List Int
  num_vehicles : Nat
  vehicle_capacities : List Int
  depot : Nat

/-- Embedding of `time_callback` (src lines 283-285): travel time plus the
service time of the node being left. -/
def time_callback (data : RoutingData) (fromNode toNode : Nat) : Int :=
  (data.time_matrix.getD fromNode []).getD toNode 0
    + data.service_times.getD fromNode 0

/-- Embedding of `demand_callback` (src lines 290-291): the demand of the
node the arc leaves. -/
def demand_callback (data : RoutingData) (fromNode : Nat) : Int :=
  data.demands.getD fromNode 0

/-- Second argument of `routing.AddDimension(transit_callback_index, 60,
1440, False, time)` (src line 297).  In the routing library's signature
`AddDimension(evaluator, slack_max, capacity, fix_start_cumul_to_zero,
name)` this is the maximum slack — waiting time that may be inserted at a
node — not a lower bound on the cumulative variable. -/
def timeDimSlackMax : Int := 60

/-- Third argument of the same call: the dimension capacity, a global upper
bound on every cumulative time variable (whose default range is
`[0, capacity]` before per-node constraints). -/
def timeDimCapacity : Int := 1440

/-- Arc transit of the capacity dimension as built by the code:
`RegisterUnaryTransitCallback(demand_callback)` (src line 293) makes every
arc leaving node `i` carry `demand_callback(i)`, whatever its head node. -/
def capacityTransit (data : RoutingData) (fromNode _toNode : Nat) : Int :=
  demand_callback data fromNode

/-- Modelled from the spec sentence behind C4 (for refinement comparison
only): a capacity transit that charges `demand(j)` on entering node `j`. -/
def specCapacityTransit (data : RoutingData) (_fromNode toNode : Nat) : Int :=
  data.demands.getD toNode 0

/-- Candidate route of one vehicle: its non-depot stops in visiting order
and the time-dimension cumulative values at start node, each stop, and end
node (`stops.length + 2` values). -/
structure VehicleRoute where
  stops : List Nat
  times : List Int

/-- Candidate solution: one route per vehicle, in vehicle input order. -/
structure VSolution where
  vehicles : List VehicleRoute

/-- Full node path of a route: depot start, the stops, depot end. -/
def vpath (data : RoutingData) (r : VehicleRoute) : List Nat :=
  data.depot :: r.stops ++ [data.depot]

/-- Capacity-dimension cumulative values along the path.  Because the
capacity dimension is built with `slack_max = 0` and
`fix_start_cumul_to_zero = True` (src line 294), the load is determined:
the value at the k-th node is the sum of the demands of the k nodes already
departed. -/
def loadsOf (data : RoutingData) (r : VehicleRoute) : List Int :=
  List.scanl (fun acc p => acc + demand_callback data p) 0
    ((vpath data r).dropLast)

/-- Time-dimension propagation along consecutive (node, cumul) pairs:
`cumul(next) = cumul(cur) + transit(cur, next) + slack` with
`0 ≤ slack ≤ slack_max`. -/
def timeChainOk (data : RoutingData) : List (Nat × Int) → Bool
  | [] => true
  | [_] => true
  | (p, t) :: (q, u) :: rest =>
    (decide (t + time_callback data p q ≤ u)
      && decide (u ≤ t + time_callback data p q + timeDimSlackMax))
      && timeChainOk data ((q, u) :: rest)

/-- All constraints `main` imposes on one vehicle's route:
shape; release lower bound on the start cumul (src line 313); global
`[0, 1440]` range of the time dimension (src line 297); transit/slack
propagation; the `[open, close]` window at every visited stop
(src lines 319-322); capacity cumuls within `[0, capacity]`
(src line 294); stops are in-range non-depot nodes. -/
def checkVehicle (data : RoutingData) (cap rel : Int) (r : VehicleRoute) : Bool :=
  (r.times.length == r.stops.length + 2)
    && decide (rel ≤ r.times.getD 0 0)
    && r.times.all (fun t => decide (0 ≤ t) && decide (t ≤ timeDimCapacity))
    && timeChainOk data ((vpath data r).zip r.times)
    && (r.stops.zip (r.times.drop 1)).all (fun st =>
        decide ((data.time_windows.getD st.1 (0, 0)).1 ≤ st.2)
          && decide (st.2 ≤ (data.time_windows.getD st.1 (0, 0)).2))
    && (loadsOf data r).all (fun l => decide (0 ≤ l) && decide (l ≤ cap))
    && r.stops.all (fun s => (!(s == data.depot)) && (s < data.time_matrix.length))

/-- Every non-depot node is visited exactly once across all routes (the
routing model declares no optional nodes, so all must be served). -/
def coverageOk (data : RoutingData) (sol : VSolution) : Bool :=
  (List.range data.time_matrix.length).all (fun node =>
    (node == data.depot)
      || ((sol.vehicles.map VehicleRoute.stops).flatten.count node == 1))

/-- Feasibility of a candidate solution for the constraint model `main`
builds: exactly the conditions a solution returned by the solve call
satisfies. -/
def checkFeasible (data : RoutingData) (releases : List Int) (sol : VSolution) : Bool :=
  (sol.vehicles.length == data.num_vehicles)
    && coverageOk data sol
    && (List.range data.num_vehicles).all (fun v =>
        checkVehicle data (data.vehicle_capacities.getD v 0)
          (releases.getD v 0) (sol.vehicles.getD v ⟨[], []⟩))

/-! ## Travel-time matrix acquisition -/

/-- One element of a distance-matrix API response row: its status string
and, when the element succeeded, the travel duration in seconds
(`element.duration.value`); a failed element carries no duration, so
subscripting it raises `KeyError`. -/
structure MatrixElement where
  status : String
  duration : Option Int

/-- Sequential option-valued map: the Python loops in `get_time_matrix`
build their lists in order and any raised exception aborts the whole
function (caught by the blanket `except`, which returns `None`). -/
def mapOpt (f : α → Option β) : List α → Option (List β)
  | [] => some []
  | a :: l =>
    match f a with
    | none => none
    | some b => (mapOpt f l).map (fun bs => b :: bs)

/-- Truncation toward zero, Python's `int(...)` on a rational value. -/
def ratTrunc (q : ℚ) : Int := q.num / q.den

/-- Embedding of `int((element.duration.value / 60) * slowdown_factor) + 1`
(src line 138), with exact rational arithmetic standing in for Python
floats. -/
def adjustDuration (factor : ℚ) (seconds : Int) : Int :=
  ratTrunc (((seconds : ℚ) / 60) * factor) + 1

/-- Processing of one response row (src lines 130-139): the explicit status
check looks only at `elements[0]`; an empty element list (`IndexError`) or a
missing duration anywhere in the row (`KeyError`) raises and is converted to
`None` by the blanket `except`. -/
def timeMatrixRow (factor : ℚ) (row : List MatrixElement) : Option (List Int) :=
  match row with
  | [] => none
  | e :: _ =>
    if e.status = "OK" then
      mapOpt (fun el => el.duration.map (adjustDuration factor)) row
    else none

/-- Forcing the diagonal to zero (src lines 142-143). -/
def setDiagZero (m : List (List Int)) : List (List Int) :=
  m.mapIdx (fun i row => row.mapIdx (fun j x => if j = i then 0 else x))

/-- Embedding of `get_time_matrix` (src lines 118-153), taking the API
responses (one element row per origin, in input order) as input; `none`
is the Python `None` return. -/
def get_time_matrix (factor : ℚ) (responses : List (List MatrixElement)) :
    Option (List (List Int)) :=
  (mapOpt (timeMatrixRow factor) responses).map setDiagZero

/-- Guard in `main` (src lines 275-276): `if time_matrix is None: return` —
the solve is attempted exactly when the matrix was produced. -/
def solve_attempted (factor : ℚ) (responses : List (List MatrixElement)) : Bool :=
  (get_time_matrix factor responses).isSome

/-! ## Solution extractor (`process_solution`, src lines 167-242) -/

/-- Decimal string of a natural number (Python `str` on the sequence and
load counters appended to the export rows). -/
def natStr (n : Nat) : String := String.mk (natDecChars n)

/-- Decimal string of an integer. -/
def intStr (n : Int) : String := String.mk (intDecChars n)

/-- Header row of the export (src line 171). -/
def exportHeader : List String :=
  ["Camion ID", "Secuencia", "Tienda", "Hora Inicio Carga", "Hora Llegada",
    "Hora Salida", "Carga Acumulada (cajas)"]

/-- Blank separator record: one empty field per header column
(`[""] * len(header)`, src line 240). -/
def blankRow : List String := List.replicate 7 ""

/-- A vehicle is used iff the node after its route start is not already the
route end (src line 180), i.e. iff it visits at least one stop. -/
def vehicleUsed (sol : VSolution) (v : Nat) : Bool :=
  !(sol.vehicles.getD v ⟨[], []⟩).stops.isEmpty

/-- Visit rows of the stop loop (src lines 202-222): one row per visited
stop, sequence incrementing, running load accumulating the stop's demand,
departure = arrival + service time.  (Numeric cells are rendered to their
decimal strings; the Python code keeps them as ints, which matters to none
of the row-level properties proved here.) -/
def visitRows (data : RoutingData) (names : List String) (vid : String) :
    Nat → Int → List (Nat × Int) → List (List String)
  | _, _, [] => []
  | seq, load, (node, arrival) :: rest =>
    let load2 := load + data.demands.getD node 0
    let departure := arrival + data.service_times.getD node 0
    [vid, natStr seq, names.getD node "", "", minutesStr arrival,
      minutesStr departure, intStr load2]
      :: visitRows data names vid (seq + 1) load2 rest

/-- Export rows contributed by vehicle `v`: none when the vehicle is unused
(src lines 180-182), otherwise the depot-departure row (src line 199), the
visit rows, and the depot-return row (src line 231). -/
def vehicleRows (data : RoutingData) (names ids : List String) (slt : List Int)
    (sol : VSolution) (v : Nat) : List (List String) :=
  let r := sol.vehicles.getD v ⟨[], []⟩
  if r.stops.isEmpty then []
  else
    let vid := ids.getD v ""
    let depotName := names.getD data.depot ""
    let depRow : List String :=
      [vid, natStr 0, depotName, minutesStr (slt.getD v 0), "",
        minutesStr (r.times.getD 0 0), intStr 0]
    let retRow : List String :=
      [vid, natStr (r.stops.length + 1), depotName, "",
        minutesStr (r.times.getD (r.stops.length + 1) 0), "",
        intStr ((r.stops.map (fun s => data.demands.getD s 0)).sum)]
    depRow :: visitRows data names vid 1 0 (r.stops.zip (r.times.drop 1))
      ++ [retRow]

/-- Count of used vehicles, recomputed by the separator condition at src
line 239 over all vehicles. -/
def totalUsed (sol : VSolution) (n : Nat) : Nat :=
  ((List.range n).filter (vehicleUsed sol)).length

/-- Main loop of `process_solution` over vehicles (src lines 175-241):
`k` is `vehicles_used` before the current vehicle; an unused vehicle is
skipped (`continue`), a used one contributes its rows followed by a blank
separator when `vehicles_used < totalUsed` still holds afterwards. -/
def processVehicles (data : RoutingData) (names ids : List String)
    (slt : List Int) (sol : VSolution) (total : Nat) :
    Nat → List Nat → List (List String)
  | _, [] => []
  | k, v :: vs =>
    if vehicleUsed sol v then
      vehicleRows data names ids slt sol v
        ++ (if k + 1 < total then [blankRow] else [])
        ++ processVehicles data names ids slt sol total (k + 1) vs
    else processVehicles data names ids slt sol total k vs

/-- Embedding of `process_solution`: the header row followed by the
per-vehicle groups. -/
def process_solution (data : RoutingData) (names ids : List String)
    (slt : List Int) (sol : VSolution) : List (List String) :=
  exportHeader ::
    processVehicles data names ids slt sol (totalUsed sol data.num_vehicles) 0
      (List.range data.num_vehicles)

/-- Groups interleaved with a single separator between consecutive ones. -/
def joinSep (sep : α) : List (List α) → List α
  | [] => []
  | [g] => g
  | g :: gs => g ++ sep :: joinSep sep gs

/-- Sums of prefixes of a list of nonnegative values are monotone. -/
theorem take_sum_mono (ds : List Int) (hd : ∀ d ∈ ds, 0 ≤ d) (u v : Nat)
    (huv : u ≤ v) : ((ds.take u).sum) ≤ ((ds.take v).sum) := by
  induction ds generalizing u v with
  | nil => simp
  | cons d t ih =>
    cases u with
    | zero =>
      simp only [List.take_zero, List.sum_nil]
      cases v with
      | zero => simp
      | succ v =>
        simp only [List.take_succ_cons, List.sum_cons]
        have h0 : (0 : Int) ≤ d := hd d (by simp)
        have h1 : (0 : Int) ≤ ((t.take v).sum) := by
          have := ih (fun x hx => hd x (by simp [hx])) 0 v (Nat.zero_le v)
          simpa using this
        omega
    | succ u =>
      cases v with
      | zero => omega
      | succ v =>
        simp only [List.take_succ_cons, List.sum_cons]
        have := ih (fun x hx => hd x (by simp [hx])) u v (by omega)
        omega

/-- Sum of a prefix extended by one more element. -/
theorem take_succ_sum (ds : List Int) (v : Nat) (h : v < ds.length) :
    ((ds.take (v + 1)).sum) = ((ds.take v).sum) + ds.getD v 0 := by
  rw [List.take_succ, List.sum_append, List.getElem?_eq_getElem h]
  simp [List.getD_eq_getElem?_getD, List.getElem?_eq_getElem h]

/-- Closed form for the loading-start times. -/
theorem load_start_eq (S : Int) (ds : List Int) (v : Nat) (h : v < ds.length) :
    load_start S ds v = S + ((ds.take v).sum) := by
  unfold load_start
  rw [staggered_times_getD S ds v h]

/-- Closed form for the release times. -/
theorem release_eq (S : Int) (ds : List Int) (v : Nat) (h : v < ds.length) :
    release S ds v = S + ((ds.take (v + 1)).sum) := by
  unfold release
  rw [staggered_times_getD S ds v h]

/-! ## Concrete instances used as witnesses and counterexamples -/

/-- Small concrete problem: depot plus two stores, two vehicles. -/
def exData : RoutingData :=
  { time_matrix := [[0, 5, 5], [5, 0, 5], [5, 5, 0]]
    time_windows := [(0, 1440), (450, 1440), (450, 1440)]
    demands := [0, 2, 3]
    service_times := [0, 5, 5]
    num_vehicles := 2
    vehicle_capacities := [10, 10]
    depot := 0 }

/-- A feasible solution for `exData` with loading start 07:30 and loading
durations `[20, 15]`: vehicle 0 serves both stores, vehicle 1 stays home. -/
def exSol : VSolution :=
  { vehicles :=
      [ { stops := [1, 2], times := [470, 475, 485, 495] }
      , { stops := [], times := [485, 485] } ] }

example : mainReleases 450 [20, 15] = [470, 485] := by decide
example : checkFeasible exData (mainReleases 450 [20, 15]) exSol = true := by decide

/-- Tiny problem in which the time windows allow very early service. -/
def cexData : RoutingData :=
  { time_matrix := [[0, 1], [1, 0]]
    time_windows := [(0, 1440), (0, 100)]
    demands := [0, 1]
    service_times := [0, 0]
    num_vehicles := 1
    vehicle_capacities := [5]
    depot := 0 }

/-- A solution of `cexData` that departs at minute 0: feasible for the
constraint model, with time cumuls far below 60. -/
def cexSol : VSolution :=
  { vehicles := [{ stops := [1], times := [0, 1, 2] }] }

example : checkFeasible cexData [0] cexSol = true := by decide

/-! ## Claim theorems -/

/-- C1: for every global loading-start time `S` and per-vehicle loading
durations `d_0..d_{n-1}` in vehicle input order, the staggered release
computation yields `load_start_0 = S`,
`load_start_v = load_start_(v-1) + d_(v-1)` for `v > 0`, and
`release_v = load_start_v + d_v = S + sum(d_0..d_v)`; when all durations
are nonnegative both sequences are monotonically non-decreasing. -/
theorem staggered_release_correct (S : Int) (ds : List Int) :
    (0 < ds.length → load_start S ds 0 = S) ∧
    (∀ v : Nat, v + 1 < ds.length →
      load_start S ds (v + 1) = load_start S ds v + ds.getD v 0) ∧
    (∀ v : Nat, v < ds.length →
      release S ds v = load_start S ds v + ds.getD v 0 ∧
      release S ds v = S + ((ds.take (v + 1)).sum)) ∧
    ((∀ d ∈ ds, 0 ≤ d) → ∀ u v : Nat, u ≤ v → v < ds.length →
      load_start S ds u ≤ load_start S ds v ∧
      release S ds u ≤ release S ds v) := by
  refine ⟨?_, ?_, ?_, ?_⟩
  · intro h
    rw [load_start_eq S ds 0 h]
    simp
  · intro v h
    rw [load_start_eq S ds (v + 1) h, load_start_eq S ds v (by omega),
      take_succ_sum ds v (by omega)]
    ring
  · intro v h
    refine ⟨?_, release_eq S ds v h⟩
    rw [release_eq S ds v h, load_start_eq S ds v h,
      take_succ_sum ds v h]
    ring
  · intro hd u v huv hv
    constructor
    · rw [load_start_eq S ds u (by omega), load_start_eq S ds v hv]
      have := take_sum_mono ds hd u v huv
      omega
    · rw [release_eq S ds u (by omega), release_eq S ds v hv]
      have := take_sum_mono ds hd (u + 1) (v + 1) (by omega)
      omega

/-- Witness for C1 at the spec's Scenario D: loading start 07:30 (= 450)
and durations `[20, 15]` give starts 07:30, 07:50 and releases 07:50,
08:05. -/
theorem staggered_release_correct_inst :
    load_start 450 [20, 15] 0 = 450 ∧
    load_start 450 [20, 15] 1 = 470 ∧
    release 450 [20, 15] 0 = 470 ∧
    release 450 [20, 15] 1 = 485 ∧
    release 450 [20, 15] 1 = load_start 450 [20, 15] 1 + 15 := by
  have h := staggered_release_correct 450 [20, 15]
  have h0 : load_start 450 [20, 15] 0 = 450 := h.1 (by decide)
  have h1 : load_start 450 [20, 15] 1 =
      load_start 450 [20, 15] 0 + [20, 15].getD 0 0 := h.2.1 0 (by decide)
  have h2 := (h.2.2.1 0 (by decide)).2
  have h3 := (h.2.2.1 1 (by decide)).2
  have h4 := (h.2.2.1 1 (by decide)).1
  refine ⟨h0, ?_, ?_, ?_, ?_⟩
  · rw [h1, h0]; decide
  · rw [h2]; decide
  · rw [h3]; decide
  · rw [h4]
    have hg : ([20, 15] : List Int).getD 1 0 = 15 := by decide
    rw [hg]

/-- What `checkVehicle` guarantees, in propositional form. -/
theorem checkVehicle_spec (data : RoutingData) (cap rel : Int) (r : VehicleRoute)
    (h : checkVehicle data cap rel r = true) :
    rel ≤ r.times.getD 0 0 ∧
    (∀ st ∈ r.stops.zip (r.times.drop 1),
      (data.time_windows.getD st.1 (0, 0)).1 ≤ st.2 ∧
        st.2 ≤ (data.time_windows.getD st.1 (0, 0)).2) ∧
    (∀ l ∈ loadsOf data r, 0 ≤ l ∧ l ≤ cap) ∧
    (∀ t ∈ r.times, 0 ≤ t ∧ t ≤ timeDimCapacity) := by
  unfold checkVehicle at h
  simp only [Bool.and_eq_true, List.all_eq_true, decide_eq_true_eq] at h
  obtain ⟨⟨⟨⟨⟨⟨hshape, hrel⟩, hbounds⟩, hchain⟩, hwin⟩, hload⟩, hstops⟩ := h
  refine ⟨hrel, ?_, ?_, ?_⟩
  · intro st hst
    exact (hwin st hst)
  · intro l hl
    exact (hload l hl)
  · intro t ht
    exact (hbounds t ht)

/-- C2: for any solution accepted as feasible by the constraint model that
`main` builds, every visited non-depot stop's arrival (time cumulative
value) lies within that stop's `[open, close]` window, every capacity
cumulative value stays at or below the owning vehicle's capacity, and the
time value at each vehicle's route start is at least its computed release
time. -/
theorem feasible_solution_invariants (data : RoutingData) (S : Int)
    (ds : List Int) (sol : VSolution)
    (h : checkFeasible data (mainReleases S ds) sol = true) :
    ∀ v, v < data.num_vehicles →
      (∀ st ∈ (sol.vehicles.getD v ⟨[], []⟩).stops.zip
          ((sol.vehicles.getD v ⟨[], []⟩).times.drop 1),
        (data.time_windows.getD st.1 (0, 0)).1 ≤ st.2 ∧
          st.2 ≤ (data.time_windows.getD st.1 (0, 0)).2) ∧
      (∀ l ∈ loadsOf data (sol.vehicles.getD v ⟨[], []⟩),
        l ≤ data.vehicle_capacities.getD v 0) ∧
      (mainReleases S ds).getD v 0 ≤
        (sol.vehicles.getD v ⟨[], []⟩).times.getD 0 0 := by
  intro v hv
  unfold checkFeasible at h
  simp only [Bool.and_eq_true, List.all_eq_true] at h
  obtain ⟨⟨hlen, hcov⟩, hveh⟩ := h
  have hs := checkVehicle_spec _ _ _ _ (hveh v (List.mem_range.mpr hv))
  exact ⟨hs.2.1, fun l hl => (hs.2.2.1 l hl).2, hs.1⟩

/-- Witness for C2 on the concrete instance `exData` / `exSol`. -/
theorem feasible_solution_invariants_inst :
    (mainReleases 450 [20, 15]).getD 0 0 ≤
      (exSol.vehicles.getD 0 ⟨[], []⟩).times.getD 0 0 ∧
    ∀ l ∈ loadsOf exData (exSol.vehicles.getD 0 ⟨[], []⟩),
      l ≤ exData.vehicle_capacities.getD 0 0 := by
  have h := feasible_solution_invariants exData 450 [20, 15] exSol
    (by decide) 0 (by decide)
  exact ⟨h.2.2, h.2.1⟩

/-- C3 counterexample: the claimed global lower bound of 60 on the
cumulative time variable does not exist.  The model built by the code
accepts `cexSol`, whose time cumulative value at the route start is 0; the
literal 60 at src line 297 is the slack maximum of
`AddDimension(evaluator, slack_max, capacity, ...)`, not a cumulative
lower bound. -/
theorem time_dim_no_lower_bound_60 :
    checkFeasible cexData [0] cexSol = true ∧
    (cexSol.vehicles.getD 0 ⟨[], []⟩).times.getD 0 0 = 0 ∧
    ¬(60 ≤ (cexSol.vehicles.getD 0 ⟨[], []⟩).times.getD 0 0) := by decide

/-- C3 (amended): the time dimension's transit from `i` to `j` is
`T[i][j] + service(i)`, and the dimension is built with the exact
constants 60 as the maximum slack (waiting time insertable at a node) and
1440 as the capacity — the global upper bound on the cumulative time
variable, whose range before per-node constraints is `[0, 1440]`. -/
theorem time_dimension_construction :
    (∀ (data : RoutingData) (i j : Nat),
      time_callback data i j =
        (data.time_matrix.getD i []).getD j 0 + data.service_times.getD i 0) ∧
    timeDimSlackMax = 60 ∧ timeDimCapacity = 1440 ∧
    (∀ (data : RoutingData) (rels : List Int) (sol : VSolution),
      checkFeasible data rels sol = true → ∀ v, v < data.num_vehicles →
        ∀ t ∈ (sol.vehicles.getD v ⟨[], []⟩).times, 0 ≤ t ∧ t ≤ 1440) := by
  refine ⟨fun data i j => rfl, rfl, rfl, ?_⟩
  intro data rels sol h v hv t ht
  unfold checkFeasible at h
  simp only [Bool.and_eq_true, List.all_eq_true] at h
  obtain ⟨⟨hlen, hcov⟩, hveh⟩ := h
  have hs := checkVehicle_spec _ _ _ _ (hveh v (List.mem_range.mpr hv))
  exact hs.2.2.2 t ht

/-- Witness for C3's amended theorem at `exData` / `exSol`. -/
theorem time_dimension_construction_inst :
    0 ≤ (exSol.vehicles.getD 0 ⟨[], []⟩).times.getD 0 0 ∧
    (exSol.vehicles.getD 0 ⟨[], []⟩).times.getD 0 0 ≤ 1440 :=
  time_dimension_construction.2.2.2 exData (mainReleases 450 [20, 15]) exSol
    (by decide) 0 (by decide)
    ((exSol.vehicles.getD 0 ⟨[], []⟩).times.getD 0 0) (by decide)

/-- Value at index `k` of a running-sum `scanl`: the start value plus the
sum of the first `k` mapped elements. -/
theorem scanl_add_getD (f : Nat → Int) (l : List Nat) (a : Int) :
    ∀ k, k < l.length + 1 →
      (List.scanl (fun acc p => acc + f p) a l).getD k 0 =
        a + ((l.take k).map f).sum := by
  induction l generalizing a with
  | nil =>
    intro k hk
    have hk0 : k = 0 := by simp at hk; omega
    subst hk0
    simp [List.scanl]
  | cons p t ih =>
    intro k hk
    cases k with
    | zero => simp [List.scanl]
    | succ k =>
      simp only [List.scanl, List.getD_cons_succ, List.take_succ_cons,
        List.map_cons, List.sum_cons]
      rw [ih (a + f p) k (by simpa using hk)]
      ring

/-- C4 counterexample: the capacity dimension does not charge `demand(j)`
on entering node `j`.  Its transit evaluator is the unary callback on the
node being left (src lines 290-293): on the arc from store 1 (demand 2) to
store 2 (demand 3) of `exData` the charged transit is 2, not 3. -/
theorem capacity_transit_cex :
    capacityTransit exData 1 2 = 2 ∧ specCapacityTransit exData 1 2 = 3 ∧
    capacityTransit exData 1 2 ≠ specCapacityTransit exData 1 2 := by decide

/-- C4 (amended): the capacity dimension charges transit `demand(i)` on
leaving node `i`; with zero slack and the start cumul fixed to 0
(src line 294) the load at the k-th node of a route is exactly the
cumulative demand of the k nodes already departed, and in any feasible
solution every load lies in `[0, vehicle capacity]`. -/
theorem capacity_dimension_construction :
    (∀ (data : RoutingData) (i j : Nat),
      capacityTransit data i j = data.demands.getD i 0) ∧
    (∀ (data : RoutingData) (r : VehicleRoute) (k : Nat),
      k < (vpath data r).length →
      (loadsOf data r).getD k 0 =
        (((vpath data r).take k).map (demand_callback data)).sum) ∧
    (∀ (data : RoutingData) (rels : List Int) (sol : VSolution),
      checkFeasible data rels sol = true → ∀ v, v < data.num_vehicles →
        ∀ l ∈ loadsOf data (sol.vehicles.getD v ⟨[], []⟩),
          0 ≤ l ∧ l ≤ data.vehicle_capacities.getD v 0) := by
  refine ⟨fun data i j => rfl, ?_, ?_⟩
  · intro data r k hk
    have hpos : 0 < (vpath data r).length := by simp [vpath]
    have hk2 : k < ((vpath data r).dropLast).length + 1 := by
      simp only [List.length_dropLast]
      omega
    unfold loadsOf
    rw [scanl_add_getD (demand_callback data) _ 0 k hk2]
    rw [List.dropLast_eq_take, List.take_take]
    have hmin : min k ((vpath data r).length - 1) = k := by omega
    rw [hmin, zero_add]
  · intro data rels sol h v hv l hl
    unfold checkFeasible at h
    simp only [Bool.and_eq_true, List.all_eq_true] at h
    obtain ⟨⟨hlen, hcov⟩, hveh⟩ := h
    have hs := checkVehicle_spec _ _ _ _ (hveh v (List.mem_range.mpr hv))
    exact hs.2.2.1 l hl

/-- Witness for C4's amended theorem: the load after leaving the depot and
store 1 on `exSol`'s first route is `0 + 2 = 2`. -/
theorem capacity_dimension_construction_inst :
    (loadsOf exData (exSol.vehicles.getD 0 ⟨[], []⟩)).getD 2 0 =
      (((vpath exData (exSol.vehicles.getD 0 ⟨[], []⟩)).take 2).map
        (demand_callback exData)).sum ∧
    (loadsOf exData (exSol.vehicles.getD 0 ⟨[], []⟩)).getD 2 0 = 2 :=
  ⟨capacity_dimension_construction.2.1 exData (exSol.vehicles.getD 0 ⟨[], []⟩)
    2 (by decide), by decide⟩

/-- C5: for every valid 24-hour clock string (two-digit hour below 24,
two-digit minute below 60), `time_to_minutes` yields `h * 60 + m` and the
extractor's rendering maps that value back to the original string: the
round trip is the identity. -/
theorem clock_roundtrip : ∀ h : Nat, h < 24 → ∀ m : Nat, m < 60 →
    time_to_minutes (clockStr h m) = some ((h : Int) * 60 + m) ∧
    minutesStr ((h : Int) * 60 + m) = clockStr h m := by decide

/-- Witness for C5 at 07:30. -/
theorem clock_roundtrip_inst :
    time_to_minutes (clockStr 7 30) = some ((7 : Int) * 60 + 30) ∧
    minutesStr ((7 : Int) * 60 + 30) = clockStr 7 30 :=
  clock_roundtrip 7 (by decide) 30 (by decide)

/-- C6: a vehicle whose route is trivial (the node after its route start is
already the route end, i.e. no stops) contributes zero rows to the exported
plan: it is skipped entirely by the extraction loop, not emitted as an idle
group. -/
theorem unused_vehicle_zero_rows (data : RoutingData) (names ids : List String)
    (slt : List Int) (sol : VSolution) (v : Nat)
    (h : (sol.vehicles.getD v ⟨[], []⟩).stops = []) :
    vehicleRows data names ids slt sol v = [] ∧
    vehicleUsed sol v = false ∧
    (∀ total k vs, processVehicles data names ids slt sol total k (v :: vs) =
      processVehicles data names ids slt sol total k vs) := by
  have hused : vehicleUsed sol v = false := by
    unfold vehicleUsed
    rw [h]
    rfl
  refine ⟨?_, hused, ?_⟩
  · simp only [vehicleRows]
    rw [h]
    simp
  · intro total k vs
    simp [processVehicles, hused]

/-- Witness for C6: vehicle 1 of `exSol` is trivial and contributes no
rows. -/
theorem unused_vehicle_zero_rows_inst :
    vehicleRows exData ["Bodega", "T1", "T2"] ["A", "B"] [450, 470] exSol 1
      = [] :=
  (unused_vehicle_zero_rows exData ["Bodega", "T1", "T2"] ["A", "B"]
    [450, 470] exSol 1 (by decide)).1

/-- Digit strings are never empty. -/
theorem natDecChars_ne_nil (n : Nat) : natDecChars n ≠ [] := by
  rw [natDecChars_eq]
  by_cases hn : n < 10
  · simp [hn]
  · simp [hn]

/-- Decimal renderings of the sequence counter are never the empty
string. -/
theorem natStr_ne_empty (k : Nat) : natStr k ≠ "" := by
  unfold natStr
  intro hcon
  have h2 := congrArg String.data hcon
  simp at h2
  exact natDecChars_ne_nil k h2

/-- Every visit row carries a sequence number in its second field. -/
theorem visitRows_getD1 (data : RoutingData) (names : List String)
    (vid : String) :
    ∀ (l : List (Nat × Int)) (seq : Nat) (load : Int) row,
      row ∈ visitRows data names vid seq load l →
      ∃ k, row.getD 1 "" = natStr k := by
  intro l
  induction l with
  | nil =>
    intro seq load row h
    simp [visitRows] at h
  | cons p rest ih =>
    intro seq load row h
    obtain ⟨node, arrival⟩ := p
    simp only [visitRows, List.mem_cons] at h
    rcases h with h | h
    · exact ⟨seq, by rw [h]; rfl⟩
    · exact ih _ _ row h

/-- No row a used vehicle contributes is the blank separator record: its
second field is a rendered sequence number, never empty. -/
theorem vehicleRows_ne_blank (data : RoutingData) (names ids : List String)
    (slt : List Int) (sol : VSolution) (v : Nat) :
    ∀ row ∈ vehicleRows data names ids slt sol v, row ≠ blankRow := by
  intro row hrow
  simp only [vehicleRows] at hrow
  by_cases he : (sol.vehicles.getD v ⟨[], []⟩).stops.isEmpty
  · rw [if_pos he] at hrow
    simp at hrow
  · rw [if_neg he] at hrow
    rw [List.mem_append, List.mem_cons, List.mem_singleton] at hrow
    have h1 : row.getD 1 "" ≠ "" := by
      rcases hrow with (h | h) | h
      · rw [h]
        exact natStr_ne_empty 0
      · obtain ⟨k, hk⟩ := visitRows_getD1 data names _ _ _ _ row h
        rw [hk]
        exact natStr_ne_empty k
      · rw [h]
        exact natStr_ne_empty _
    intro hcon
    rw [hcon] at h1
    exact h1 rfl

/-- Unfolding of `joinSep` when more groups follow. -/
theorem joinSep_cons_of_ne_nil (sep : α) (g : List α) (gs : List (List α))
    (h : gs ≠ []) : joinSep sep (g :: gs) = g ++ sep :: joinSep sep gs := by
  cases gs with
  | nil => exact absurd rfl h
  | cons g2 gs2 => rfl

/-- The extraction loop produces exactly the used vehicles' groups joined
by single blank separators, provided the counter invariant
`k + number of used vehicles still to process = total` holds. -/
theorem processVehicles_eq_joinSep (data : RoutingData) (names ids : List String)
    (slt : List Int) (sol : VSolution) (total : Nat) :
    ∀ (vs : List Nat) (k : Nat),
      k + ((vs.filter (vehicleUsed sol)).length) = total →
      processVehicles data names ids slt sol total k vs =
        joinSep blankRow
          ((vs.filter (vehicleUsed sol)).map
            (vehicleRows data names ids slt sol)) := by
  intro vs
  induction vs with
  | nil =>
    intro k hk
    rfl
  | cons v vs ih =>
    intro k hk
    by_cases hu : vehicleUsed sol v = true
    · rw [List.filter_cons_of_pos hu] at hk ⊢
      simp only [List.length_cons] at hk
      simp only [processVehicles]
      rw [if_pos hu]
      cases hfe : vs.filter (vehicleUsed sol) with
      | nil =>
        have hk2 : k + 1 = total := by
          rw [hfe] at hk
          simpa using hk
        rw [if_neg (by omega : ¬(k + 1 < total))]
        have h3 := ih (k + 1) (by rw [hfe]; simpa using hk2)
        rw [hfe] at h3
        rw [h3]
        simp [joinSep]
      | cons g gs =>
        have hlen : (vs.filter (vehicleUsed sol)).length = gs.length + 1 := by
          rw [hfe]
          rfl
        have hblank : k + 1 < total := by omega
        rw [if_pos hblank]
        have h3 := ih (k + 1) (by omega)
        rw [hfe] at h3
        rw [h3]
        simp [joinSep]
    · have hu2 : vehicleUsed sol v = false := by
        revert hu
        cases vehicleUsed sol v <;> simp
      rw [List.filter_cons_of_neg (by simp [hu2])] at hk ⊢
      simp only [processVehicles]
      rw [if_neg (by simp [hu2])]
      exact ih k hk

/-- C7: the exported plan is the header followed by the used vehicles'
groups, in vehicle input order, with exactly one blank record between
consecutive used groups and none after the last; and no row inside any
group is the blank record, so separators occur nowhere else. -/
theorem blank_separators_between_used_groups (data : RoutingData)
    (names ids : List String) (slt : List Int) (sol : VSolution) :
    process_solution data names ids slt sol =
      exportHeader ::
        joinSep blankRow
          (((List.range data.num_vehicles).filter (vehicleUsed sol)).map
            (vehicleRows data names ids slt sol)) ∧
    ∀ v : Nat, ∀ row ∈ vehicleRows data names ids slt sol v,
      row ≠ blankRow := by
  constructor
  · unfold process_solution
    congr 1
    exact processVehicles_eq_joinSep data names ids slt sol _
      (List.range data.num_vehicles) 0 (by simp [totalUsed])
  · intro v
    exact vehicleRows_ne_blank data names ids slt sol v

/-- Witness for C7: the depot-departure row emitted for vehicle 0 of
`exSol` is not the blank record. -/
theorem blank_separators_between_used_groups_inst :
    (vehicleRows exData ["Bodega", "T1", "T2"] ["A", "B"] [450, 470] exSol
        0).getD 0 [] ≠ blankRow :=
  (blank_separators_between_used_groups exData ["Bodega", "T1", "T2"]
      ["A", "B"] [450, 470] exSol).2 0
    ((vehicleRows exData ["Bodega", "T1", "T2"] ["A", "B"] [450, 470] exSol
        0).getD 0 []) (by decide)

/-- A sequential option-map fails as soon as any element fails. -/
theorem mapOpt_eq_none_of_mem (f : α → Option β) (l : List α) (x : α)
    (hx : x ∈ l) (hf : f x = none) : mapOpt f l = none := by
  induction l with
  | nil => simp at hx
  | cons a t ih =>
    rcases List.mem_cons.mp hx with h | h
    · subst h
      simp [mapOpt, hf]
    · unfold mapOpt
      cases hfa : f a with
      | none => rfl
      | some b =>
        rw [ih h]
        rfl

/-- C8: if any element of any response row has a non-OK status (and
therefore, as in the mapping API's response format, carries no duration
value), `get_time_matrix` produces no matrix at all and `main` attempts no
solve.  A non-OK first element trips the explicit status check; a non-OK
later element raises `KeyError` on the missing duration, which the blanket
`except` turns into `None`. -/
theorem failed_entry_invalidates_matrix (factor : ℚ)
    (responses : List (List MatrixElement))
    (hwf : ∀ r ∈ responses, ∀ el ∈ r, el.status ≠ "OK" → el.duration = none)
    (row : List MatrixElement) (e : MatrixElement)
    (hrow : row ∈ responses) (he : e ∈ row) (hst : e.status ≠ "OK") :
    get_time_matrix factor responses = none ∧
    solve_attempted factor responses = false := by
  have hnone : timeMatrixRow factor row = none := by
    cases row with
    | nil => rfl
    | cons e0 rest =>
      simp only [timeMatrixRow]
      by_cases h0 : e0.status = "OK"
      · rw [if_pos h0]
        have hd : e.duration = none := hwf _ hrow e he hst
        exact mapOpt_eq_none_of_mem _ _ e he (by rw [hd]; rfl)
      · rw [if_neg h0]
  have hm : mapOpt (timeMatrixRow factor) responses = none :=
    mapOpt_eq_none_of_mem _ _ row hrow hnone
  constructor
  · unfold get_time_matrix
    rw [hm]
    rfl
  · unfold solve_attempted get_time_matrix
    rw [hm]
    rfl

/-- Witness for C8: a single failed element yields no matrix and no solve. -/
theorem failed_entry_invalidates_matrix_inst :
    get_time_matrix (3 / 2) [[⟨"NOT_FOUND", none⟩]] = none ∧
    solve_attempted (3 / 2) [[⟨"NOT_FOUND", none⟩]] = false :=
  failed_entry_invalidates_matrix (3 / 2) [[⟨"NOT_FOUND", none⟩]]
    (by intro r hr el hel hst; simp at hr; subst hr; simp at hel; subst hel; rfl)
    [⟨"NOT_FOUND", none⟩] ⟨"NOT_FOUND", none⟩ (by simp) (by simp) (by decide)

/-- C9: `time_to_minutes` succeeds exactly when the input splits on a colon
into two int-parseable parts, returning `h * 60 + m`; every other input
raises.  It performs no range validation: the out-of-range clock string
25:99 is accepted and yields 1599. -/
theorem time_to_minutes_partiality :
    (∀ (s : String) (a b : List Char) (h m : Int),
      splitOnChar ':' s.data = [a, b] → pyInt a = some h → pyInt b = some m →
      time_to_minutes s = some (h * 60 + m)) ∧
    (∀ s : String, (time_to_minutes s).isSome = true ↔
      ∃ a b, splitOnChar ':' s.data = [a, b] ∧
        (pyInt a).isSome = true ∧ (pyInt b).isSome = true) ∧
    time_to_minutes (String.mk ['2', '5', ':', '9', '9']) = some 1599 := by
  refine ⟨?_, ?_, by decide⟩
  · intro s a b h m hsplit ha hb
    unfold time_to_minutes
    rw [hsplit]
    simp [ha, hb]
  · intro s
    unfold time_to_minutes
    rcases hsp : splitOnChar ':' s.data with _ | ⟨a, _ | ⟨b, _ | ⟨c, t⟩⟩⟩
    · simp
    · cases ha : pyInt a <;> simp [ha]
    · cases ha : pyInt a <;> cases hb : pyInt b <;> simp [ha, hb]
      exact ⟨a, b, ⟨rfl, rfl⟩, by rw [ha]; rfl, by rw [hb]; rfl⟩
    · cases ha : pyInt a <;> cases hb : pyInt b <;> simp [ha, hb]

/-- Witness for C9 at the well-formed input 07:30. -/
theorem time_to_minutes_partiality_inst :
    time_to_minutes (String.mk ['0', '7', ':', '3', '0']) =
      some ((7 : Int) * 60 + 30) :=
  time_to_minutes_partiality.1 (String.mk ['0', '7', ':', '3', '0'])
    ['0', '7'] ['3', '0'] 7 30 (by decide) (by decide) (by decide)

theorem digitChar_isDigit (d : Nat) (h : d < 10) :
    (digitChar d).isDigit = true := by
  interval_cases d <;> decide

theorem digitChar_toNat (d : Nat) (h : d < 10) :
    (digitChar d).toNat - 48 = d := by
  interval_cases d <;> decide

/-- Every character of a decimal rendering is a digit. -/
theorem natDecChars_all_digit (n : Nat) :
    ∀ c ∈ natDecChars n, c.isDigit = true := by
  induction n using Nat.strong_induction_on with
  | _ n ih =>
    rw [natDecChars_eq]
    by_cases hn : n < 10
    · rw [if_pos hn]
      intro c hc
      rw [List.mem_singleton] at hc
      subst hc
      exact digitChar_isDigit n hn
    · rw [if_neg hn]
      intro c hc
      rcases List.mem_append.mp hc with h | h
      · exact ih (n / 10) (Nat.div_lt_self (by omega) (by omega)) c h
      · rw [List.mem_singleton] at h
        subst h
        exact digitChar_isDigit (n % 10) (Nat.mod_lt _ (by omega))

theorem digitsVal_append (cs : List Char) (c : Char) :
    digitsVal (cs ++ [c]) = 10 * digitsVal cs + (c.toNat - 48) := by
  unfold digitsVal
  rw [List.foldl_append]
  rfl

/-- Rendering then revaluing the digits is the identity. -/
theorem digitsVal_natDecChars (n : Nat) : digitsVal (natDecChars n) = n := by
  induction n using Nat.strong_induction_on with
  | _ n ih =>
    rw [natDecChars_eq]
    by_cases hn : n < 10
    · rw [if_pos hn]
      have hd := digitChar_toNat n hn
      unfold digitsVal
      simp only [List.foldl_cons, List.foldl_nil]
      omega
    · rw [if_neg hn, digitsVal_append,
        ih (n / 10) (Nat.div_lt_self (by omega) (by omega)),
        digitChar_toNat (n % 10) (Nat.mod_lt _ (by omega))]
      omega

/-- Parsing a decimal rendering gives back the value. -/
theorem parseDigits_natDecChars (n : Nat) :
    parseDigits (natDecChars n) = some n := by
  have h1 : (natDecChars n).isEmpty = false := by
    cases hcs : natDecChars n with
    | nil => exact absurd hcs (natDecChars_ne_nil n)
    | cons c t => rfl
  have h2 : (natDecChars n).all (fun c => c.isDigit) = true := by
    rw [List.all_eq_true]
    intro c hc
    exact natDecChars_all_digit n c hc
  simp [parseDigits, h1, h2, digitsVal_natDecChars]

/-- `takeWhile` swallows a satisfying run and stops at the first failing
element. -/
theorem takeWhile_append_of_all (p : Char → Bool) (xs : List Char) (y : Char)
    (rest : List Char) (hall : ∀ c ∈ xs, p c = true) (hy : p y = false) :
    (xs ++ y :: rest).takeWhile p = xs := by
  induction xs with
  | nil => simp [List.takeWhile_cons, hy]
  | cons x t ih =>
    have hx : p x = true := hall x (by simp)
    simp [List.takeWhile_cons, hx, ih (fun c hc => hall c (by simp [hc]))]

theorem isDigit_not_colon (c : Char) (h : c.isDigit = true) :
    (!(c == ':')) = true := by
  have hne : c ≠ ':' := by
    intro hcon
    subst hcon
    simp at h
  simp [hne]

/-- C10: the extractor renders minute-of-day values with hour `v // 60`,
with no wrap modulo 24 hours: for every cumulative value `v ≥ 1440` the
emitted hour field parses back to `v / 60 ≥ 24`; in particular 1470
renders as 24:30, never as a next-day time. -/
theorem hour_field_not_wrapped (v : Int) (hv : 1440 ≤ v) :
    parseDigits ((minutesStr v).data.takeWhile (fun c => !(c == ':'))) =
      some (v.toNat / 60) ∧
    24 ≤ v.toNat / 60 ∧
    minutesStr 1470 = String.mk ['2', '4', ':', '3', '0'] := by
  have hv0 : (0 : Int) ≤ v := by omega
  have hdiv : Int.fdiv v 60 = ((v.toNat / 60 : Nat) : Int) := by
    rw [Int.fdiv_eq_ediv v (by omega : (0 : Int) ≤ 60)]
    omega
  have hge : 10 ≤ v.toNat / 60 := by omega
  refine ⟨?_, by omega, by decide⟩
  show parseDigits
    ((pad2 (Int.fdiv v 60) ++ ':' :: pad2 (Int.fmod v 60)).takeWhile
      (fun c => !(c == ':'))) = some (v.toNat / 60)
  rw [hdiv]
  have hpad : pad2 ((v.toNat / 60 : Nat) : Int) = natDecChars (v.toNat / 60) := by
    unfold pad2 intDecChars
    rw [if_neg (by omega), if_neg (by omega)]
    congr 1
  rw [hpad]
  rw [takeWhile_append_of_all _ _ ':' _
    (fun c hc => isDigit_not_colon c (natDecChars_all_digit _ c hc))
    (by decide)]
  exact parseDigits_natDecChars _

/-- Witness for C10 at `v = 1470`. -/
theorem hour_field_not_wrapped_inst :
    parseDigits ((minutesStr 1470).data.takeWhile (fun c => !(c == ':'))) =
      some ((1470 : Int).toNat / 60) ∧
    24 ≤ (1470 : Int).toNat / 60 ∧
    minutesStr 1470 = String.mk ['2', '4', ':', '3', '0'] :=
  hour_field_not_wrapped 1470 (by decide)
